import Mathlib

/-!
# A verification model of the asyncpraw model classes

This file gives a shallow embedding, in Lean, of the pure logic of several
model classes of the `asyncpraw` repository (Reddit API wrapper):

* `Multireddit.sluggify` (src/asyncpraw/models/reddit/multi.py),
* `MoreComments` comment-tree expansion (src/praw/models/reddit/more.py),
* the CRUD operations `Multireddit.add`, `Multireddit.copy`,
  `Redditor.unblock` (src/asyncpraw/models/reddit/{multi,redditor}.py),
* `ReplyableMixin.reply` (src/asyncpraw/models/reddit/mixins/replyable.py),
* `RuleModeration.update` and `SubredditRulesModeration.reorder`
  (src/asyncpraw/models/reddit/rules.py).

Python strings are modelled as lists of Unicode code points (`List Nat`) where
character-class logic matters, and as Lean `String`s elsewhere.  Network
operations are modelled by explicit request traces: every function that the
Python code runs against the HTTP transport returns, next to its result, the
list of requests it issued, and takes the transport's responses as an oracle
argument.
-/

namespace AsyncPrawSpec

/-! ## Python strings as lists of Unicode code points -/

/-- The code points of a Lean string, used to write concrete Python strings in
statements about the code-point model. -/
def pyCodes (s : String) : List Nat := s.data.map Char.toNat

/-! ## `Multireddit.sluggify` (src/asyncpraw/models/reddit/multi.py, lines 48-65)

```python
RE_INVALID = re.compile(r"[\W_]+", re.UNICODE)

@staticmethod
def sluggify(title: str):
    title = Multireddit.RE_INVALID.sub("_", title).strip("_").lower()
    if len(title) > 21:  # truncate to nearest word
        title = title[:21]
        last_word = title.rfind("_")
        if last_word > 0:
            title = title[:last_word]
    return title or "_"
```
-/

/-- ASCII alphanumeric code points (`[0-9A-Za-z]`). -/
def isAsciiAlnum (n : Nat) : Bool :=
  decide ((48 ≤ n ∧ n ≤ 57) ∨ (65 ≤ n ∧ n ≤ 90) ∨ (97 ≤ n ∧ n ≤ 122))

/-- Python's `\w` under `re.UNICODE`.  Exact on the Basic Latin block and on
the Latin-1 letters (U+00C0-U+00FF without the multiplication and division
signs U+00D7, U+00F7).  The remaining Unicode word characters (letters beyond
U+00FF, a few Latin-1 signs such as U+00B5) are not modelled and are treated
as non-word; no theorem below evaluates the model at such a code point. -/
def isPyWord (n : Nat) : Bool :=
  isAsciiAlnum n || decide (n = 95) ||
    decide (192 ≤ n ∧ n ≤ 255 ∧ n ≠ 215 ∧ n ≠ 247)

/-- A code point that survives the substitution `RE_INVALID.sub("_", title)`:
a word character other than `_` (the regex class is `[\W_]`). -/
def keepChar (n : Nat) : Bool := isPyWord n && decide (n ≠ 95)

/-- `RE_INVALID.sub("_", title)`: each maximal run of characters matching
`[\W_]` is replaced by a single `_` (code point 95).  The Boolean argument
records whether the previous character was part of such a run (so the run's
underscore has already been emitted). -/
def subAux : Bool → List Nat → List Nat
  | _, [] => []
  | inRun, c :: rest =>
    if keepChar c then c :: subAux false rest
    else
      match inRun with
      | true => subAux true rest
      | false => 95 :: subAux true rest

/-- Python `str.strip("_")`: remove leading and trailing underscores. -/
def stripUnderscores (l : List Nat) : List Nat :=
  ((l.dropWhile (fun n => n == 95)).reverse.dropWhile (fun n => n == 95)).reverse

/-- Python `str.lower()` on one code point, exact on Basic Latin and Latin-1:
`A`-`Z` and the Latin-1 capital letters U+00C0-U+00DE (without U+00D7) map 32
code points up; everything else in the modelled range is unchanged. -/
def pyLowerChar (n : Nat) : Nat :=
  if (65 ≤ n ∧ n ≤ 90) ∨ (192 ≤ n ∧ n ≤ 222 ∧ n ≠ 215) then n + 32 else n

/-- Python `str.rfind(c)` restricted to a successful result: the index of the
last occurrence of `c`, or `none` when absent (Python returns `-1`; the caller
in `sluggify` only compares the result with `0`, which the `none` branch
models). -/
def pyRfind (c : Nat) : List Nat → Option Nat
  | [] => none
  | x :: rest =>
    match pyRfind c rest with
    | some i => some (i + 1)
    | none => if x == c then some 0 else none

/-- The intermediate value of `title` in `sluggify` after the first source
line: `RE_INVALID.sub("_", title).strip("_").lower()`. -/
def cleaned (title : List Nat) : List Nat :=
  (stripUnderscores (subAux false title)).map pyLowerChar

/-- The truncation step of `sluggify`: if longer than 21, truncate to 21 and
then to the last underscore when its index is positive. -/
def truncate21 (t : List Nat) : List Nat :=
  if 21 < t.length then
    match pyRfind 95 (t.take 21) with
    | some lastWord => if 0 < lastWord then (t.take 21).take lastWord else t.take 21
    | none => t.take 21
  else t

/-- `Multireddit.sluggify` on code points, following the source line by line:
substitute runs of `[\W_]` by `_`, strip underscores, lowercase; if longer
than 21, truncate to 21 and then to the last underscore when its index is
positive; an empty result becomes `"_"`. -/
def sluggify (title : List Nat) : List Nat :=
  if truncate21 (cleaned title) = [] then [95] else truncate21 (cleaned title)

/-- The character class `[a-z0-9_]` that the specification asserts for
`sluggify` output. -/
def isSlugOutputChar (n : Nat) : Bool :=
  decide ((97 ≤ n ∧ n ≤ 122) ∨ (48 ≤ n ∧ n ≤ 57) ∨ n = 95)

example : sluggify (pyCodes "") = pyCodes "_" := by decide
example : sluggify (pyCodes "Hello World!") = pyCodes "hello_world" := by decide
example : sluggify (pyCodes "a_very_long_title_here_indeed") = pyCodes "a_very_long_title" := by decide

/-! ### Lemmas about `sluggify` -/

/-- `NoAdjU a b` holds of adjacent output characters: never two adjacent
underscores. -/
def NoAdjU (a b : Nat) : Prop := ¬(a = 95 ∧ b = 95)

theorem keepChar_ne_95 {n : Nat} (h : keepChar n = true) : n ≠ 95 := by
  simp only [keepChar, Bool.and_eq_true, decide_eq_true_eq] at h
  exact h.2

theorem subAux_mem :
    ∀ (b : Bool) (l : List Nat), ∀ c ∈ subAux b l,
      c = 95 ∨ (keepChar c = true ∧ c ∈ l) := by
  intro b l
  induction l generalizing b with
  | nil => intro c hc; simp [subAux] at hc
  | cons x rest ih =>
    intro c hc
    simp only [subAux] at hc
    by_cases hk : keepChar x = true
    · rw [if_pos hk] at hc
      rcases List.mem_cons.1 hc with h | h
      · subst h; exact Or.inr ⟨hk, List.mem_cons_self _ _⟩
      · rcases ih false c h with h95 | ⟨hkc, hm⟩
        · exact Or.inl h95
        · exact Or.inr ⟨hkc, List.mem_cons_of_mem _ hm⟩
    · rw [if_neg hk] at hc
      cases b with
      | true =>
        rcases ih true c hc with h95 | ⟨hkc, hm⟩
        · exact Or.inl h95
        · exact Or.inr ⟨hkc, List.mem_cons_of_mem _ hm⟩
      | false =>
        rcases List.mem_cons.1 hc with h | h
        · exact Or.inl h
        · rcases ih true c h with h95 | ⟨hkc, hm⟩
          · exact Or.inl h95
          · exact Or.inr ⟨hkc, List.mem_cons_of_mem _ hm⟩

theorem subAux_true_head :
    ∀ (l : List Nat) (x : Nat), (subAux true l).head? = some x → keepChar x = true := by
  intro l
  induction l with
  | nil => intro x hx; simp [subAux] at hx
  | cons c rest ih =>
    intro x hx
    simp only [subAux] at hx
    by_cases hk : keepChar c = true
    · rw [if_pos hk] at hx
      simp only [List.head?_cons, Option.some.injEq] at hx
      subst hx; exact hk
    · rw [if_neg hk] at hx
      exact ih x hx

theorem subAux_chain :
    ∀ (b : Bool) (l : List Nat), (subAux b l).Chain' NoAdjU := by
  intro b l
  induction l generalizing b with
  | nil => simp [subAux]
  | cons c rest ih =>
    simp only [subAux]
    by_cases hk : keepChar c = true
    · rw [if_pos hk]
      refine List.chain'_cons'.2 ⟨?_, ih false⟩
      intro y _
      exact fun hand => keepChar_ne_95 hk hand.1
    · rw [if_neg hk]
      cases b with
      | true => exact ih true
      | false =>
        refine List.chain'_cons'.2 ⟨?_, ih true⟩
        intro y hy
        intro hand
        have := subAux_true_head rest y hy
        exact keepChar_ne_95 this hand.2

theorem mem_dropWhile {p : Nat → Bool} :
    ∀ (l : List Nat), ∀ c ∈ l.dropWhile p, c ∈ l := by
  intro l
  induction l with
  | nil => intro c hc; simp [List.dropWhile] at hc
  | cons x rest ih =>
    intro c hc
    rw [List.dropWhile_cons] at hc
    by_cases hp : p x = true
    · rw [if_pos hp] at hc
      exact List.mem_cons_of_mem _ (ih c hc)
    · rw [if_neg hp] at hc
      exact hc

theorem head?_dropWhile {p : Nat → Bool} :
    ∀ (l : List Nat) (x : Nat), (l.dropWhile p).head? = some x → p x = false := by
  intro l
  induction l with
  | nil => intro x hx; simp [List.dropWhile] at hx
  | cons c rest ih =>
    intro x hx
    rw [List.dropWhile_cons] at hx
    by_cases hp : p c = true
    · rw [if_pos hp] at hx; exact ih x hx
    · rw [if_neg hp] at hx
      simp only [List.head?_cons, Option.some.injEq] at hx
      subst hx
      exact Bool.eq_false_iff.2 hp

theorem getLast?_dropWhile {p : Nat → Bool} :
    ∀ (l : List Nat) (x : Nat), (l.dropWhile p).getLast? = some x → l.getLast? = some x := by
  intro l
  induction l with
  | nil => intro x hx; simp [List.dropWhile] at hx
  | cons c rest ih =>
    intro x hx
    rw [List.dropWhile_cons] at hx
    by_cases hp : p c = true
    · rw [if_pos hp] at hx
      have hx' := ih x hx
      have hne : rest ≠ [] := by
        intro h; subst h; simp at hx'
      cases rest with
      | nil => exact absurd rfl hne
      | cons y ys => rw [List.getLast?_cons_cons]; exact hx'
    · rw [if_neg hp] at hx
      exact hx

theorem chain'_dropWhile {p : Nat → Bool} {R : Nat → Nat → Prop} :
    ∀ (l : List Nat), l.Chain' R → (l.dropWhile p).Chain' R := by
  intro l
  induction l with
  | nil => intro _; simp [List.dropWhile]
  | cons c rest ih =>
    intro h
    rw [List.dropWhile_cons]
    by_cases hp : p c = true
    · rw [if_pos hp]; exact ih (List.chain'_cons'.1 h).2
    · rw [if_neg hp]; exact h

theorem chain'_reverse_noAdj {l : List Nat} (h : l.Chain' NoAdjU) :
    l.reverse.Chain' NoAdjU := by
  rw [List.chain'_reverse]
  exact h.imp fun a b hab => fun hand => hab ⟨hand.2, hand.1⟩

theorem strip_mem : ∀ (l : List Nat), ∀ c ∈ stripUnderscores l, c ∈ l := by
  intro l c hc
  unfold stripUnderscores at hc
  rw [List.mem_reverse] at hc
  have := mem_dropWhile _ c hc
  rw [List.mem_reverse] at this
  exact mem_dropWhile _ c this

theorem strip_getLast {l : List Nat} {x : Nat}
    (h : (stripUnderscores l).getLast? = some x) : x ≠ 95 := by
  unfold stripUnderscores at h
  rw [List.getLast?_reverse] at h
  have := head?_dropWhile _ x h
  simpa using this

theorem strip_head {l : List Nat} {x : Nat}
    (h : (stripUnderscores l).head? = some x) : x ≠ 95 := by
  unfold stripUnderscores at h
  rw [List.head?_reverse] at h
  have h2 := getLast?_dropWhile _ x h
  rw [List.getLast?_reverse] at h2
  have := head?_dropWhile _ x h2
  simpa using this

theorem strip_chain {l : List Nat} (h : l.Chain' NoAdjU) :
    (stripUnderscores l).Chain' NoAdjU := by
  unfold stripUnderscores
  exact chain'_reverse_noAdj (chain'_dropWhile _ (chain'_reverse_noAdj (chain'_dropWhile _ h)))

theorem pyLowerChar_eq_95 {n : Nat} (h : pyLowerChar n = 95) : n = 95 := by
  unfold pyLowerChar at h
  split at h <;> omega

theorem cleaned_head {l : List Nat} {x : Nat}
    (h : (cleaned l).head? = some x) : x ≠ 95 := by
  unfold cleaned at h
  rw [List.head?_map] at h
  cases hy : (stripUnderscores (subAux false l)).head? with
  | none => rw [hy] at h; simp at h
  | some y =>
    rw [hy] at h
    simp only [Option.map_some', Option.some.injEq] at h
    subst h
    intro h95
    exact strip_head hy (pyLowerChar_eq_95 h95)

theorem cleaned_getLast {l : List Nat} {x : Nat}
    (h : (cleaned l).getLast? = some x) : x ≠ 95 := by
  unfold cleaned at h
  rw [List.getLast?_map] at h
  cases hy : (stripUnderscores (subAux false l)).getLast? with
  | none => rw [hy] at h; simp at h
  | some y =>
    rw [hy] at h
    simp only [Option.map_some', Option.some.injEq] at h
    subst h
    intro h95
    exact strip_getLast hy (pyLowerChar_eq_95 h95)

theorem cleaned_chain (l : List Nat) : (cleaned l).Chain' NoAdjU := by
  unfold cleaned
  have h := strip_chain (subAux_chain false l)
  rw [List.chain'_map]
  exact h.imp fun a b hab => fun hand =>
    hab ⟨pyLowerChar_eq_95 hand.1, pyLowerChar_eq_95 hand.2⟩

theorem cleaned_mem {l : List Nat} (hascii : ∀ c ∈ l, c < 128) :
    ∀ c ∈ cleaned l, isSlugOutputChar c = true := by
  intro c hc
  unfold cleaned at hc
  rcases List.mem_map.1 hc with ⟨y, hy, hyc⟩
  subst hyc
  rcases subAux_mem false l y (strip_mem _ y hy) with h95 | ⟨hk, hm⟩
  · subst h95
    simp [pyLowerChar, isSlugOutputChar]
  · have hlt : y < 128 := hascii y hm
    simp only [keepChar, isPyWord, isAsciiAlnum, Bool.and_eq_true, Bool.or_eq_true,
      decide_eq_true_eq] at hk
    simp only [pyLowerChar, isSlugOutputChar, decide_eq_true_eq]
    split <;> omega

theorem pyRfind_getElem :
    ∀ (l : List Nat) (p : Nat), pyRfind 95 l = some p → p < l.length ∧ l[p]? = some 95 := by
  intro l
  induction l with
  | nil => intro p hp; simp [pyRfind] at hp
  | cons x rest ih =>
    intro p hp
    simp only [pyRfind] at hp
    cases hr : pyRfind 95 rest with
    | some i =>
      rw [hr] at hp
      simp only [Option.some.injEq] at hp
      subst hp
      rcases ih i hr with ⟨hlt, hget⟩
      refine ⟨by simp; omega, ?_⟩
      simpa using hget
    | none =>
      rw [hr] at hp
      by_cases hx : (x == 95) = true
      · rw [if_pos hx] at hp
        simp only [Option.some.injEq] at hp
        subst hp
        refine ⟨by simp, ?_⟩
        simp only [List.getElem?_cons_zero, Option.some.injEq]
        rw [beq_iff_eq] at hx
        exact hx
      · rw [if_neg hx] at hp
        exact absurd hp (by simp)

theorem pyRfind_none :
    ∀ (l : List Nat), pyRfind 95 l = none → ∀ c ∈ l, c ≠ 95 := by
  intro l
  induction l with
  | nil => intro _ c hc; simp at hc
  | cons x rest ih =>
    intro h c hc
    simp only [pyRfind] at h
    cases hr : pyRfind 95 rest with
    | some i => rw [hr] at h; simp at h
    | none =>
      rw [hr] at h
      by_cases hx : (x == 95) = true
      · rw [if_pos hx] at h; simp at h
      · rw [if_neg hx] at h
        rcases List.mem_cons.1 hc with hcx | hcr
        · subst hcx; simpa using hx
        · exact ih hr c hcr

theorem chain'_pair_ne {l : List Nat} (h : l.Chain' NoAdjU) {i : Nat}
    (hi : i + 1 < l.length) (h95 : l[i + 1]? = some 95) : l[i]? ≠ some 95 := by
  rw [List.chain'_iff_get] at h
  have hi' : i < l.length - 1 := by omega
  have hR := h i hi'
  intro hg
  have e1 : l.get ⟨i, by omega⟩ = 95 := by
    have := List.getElem?_eq_getElem (l := l) (n := i) (by omega)
    rw [this] at hg
    simpa [List.get_eq_getElem] using hg
  have e2 : l.get ⟨i + 1, by omega⟩ = 95 := by
    have := List.getElem?_eq_getElem (l := l) (n := i + 1) hi
    rw [this] at h95
    simpa [List.get_eq_getElem] using h95
  exact hR ⟨e1, e2⟩

theorem head?_take {l : List Nat} {n : Nat} (hn : 0 < n) :
    (l.take n).head? = l.head? := by
  cases l with
  | nil => simp
  | cons x rest =>
    cases n with
    | zero => omega
    | succ m => simp [List.take]

theorem getLast?_take_getElem? {l : List Nat} {p : Nat} (hp : 0 < p)
    (hpl : p ≤ l.length) : (l.take p).getLast? = l[p - 1]? := by
  have hlen : (l.take p).length = p := by
    rw [List.length_take]; omega
  rw [List.getLast?_eq_getElem?, hlen, List.getElem?_take, if_pos (by omega)]

theorem truncate21_length (t : List Nat) : (truncate21 t).length ≤ 21 := by
  unfold truncate21
  split
  · split
    · split
      · simp only [List.length_take]; omega
      · simp only [List.length_take]; omega
    · simp only [List.length_take]; omega
  · omega

theorem truncate21_subset (t : List Nat) : ∀ c ∈ truncate21 t, c ∈ t := by
  intro c hc
  unfold truncate21 at hc
  split at hc
  · split at hc
    · split at hc
      · exact List.mem_of_mem_take (List.mem_of_mem_take hc)
      · exact List.mem_of_mem_take hc
    · exact List.mem_of_mem_take hc
  · exact hc

theorem truncate21_head {t : List Nat} {x : Nat}
    (h : (truncate21 t).head? = some x) : t.head? = some x := by
  unfold truncate21 at h
  split at h
  · split at h
    · split at h
      next hp =>
        rw [head?_take hp, head?_take (by omega : (0:Nat) < 21)] at h
        exact h
      next hp =>
        rw [head?_take (by omega : (0:Nat) < 21)] at h
        exact h
    · rw [head?_take (by omega : (0:Nat) < 21)] at h
      exact h
  · exact h

theorem truncate21_getLast {t : List Nat} (hchain : t.Chain' NoAdjU)
    (hhead : ∀ x, t.head? = some x → x ≠ 95)
    (hlast : ∀ x, t.getLast? = some x → x ≠ 95) :
    ∀ x, (truncate21 t).getLast? = some x → x ≠ 95 := by
  intro x h
  unfold truncate21 at h
  split at h
  next hl =>
    have hlen21 : (t.take 21).length = 21 := by
      rw [List.length_take]; omega
    split at h
    next p hr =>
      rcases pyRfind_getElem _ p hr with ⟨hplt, hpget⟩
      rw [hlen21] at hplt
      have hpget' : t[p]? = some 95 := by
        rw [List.getElem?_take, if_pos hplt] at hpget
        exact hpget
      split at h
      next hp =>
        rw [getLast?_take_getElem? hp (by omega)] at h
        rw [List.getElem?_take, if_pos (by omega)] at h
        have hne := chain'_pair_ne hchain (i := p - 1)
          (by omega) (by rw [Nat.sub_add_cancel (by omega)]; exact hpget')
        intro hx
        subst hx
        exact hne h
      next hp =>
        -- `lastWord = 0` would mean the cleaned string starts with `_`,
        -- which stripping already ruled out; the branch is vacuous.
        exfalso
        have hp0 : p = 0 := by omega
        subst hp0
        have hh : t.head? = some 95 := by
          rw [List.head?_eq_getElem?]
          exact hpget'
        exact hhead 95 hh rfl
    next hr =>
      have hmem : x ∈ t.take 21 := List.mem_of_getLast?_eq_some h
      exact pyRfind_none _ hr x hmem
  next hl =>
    exact hlast x h

/-- Code-point facts about `cleaned`: the material the final theorems use. -/
theorem cleaned_facts (s : List Nat) :
    (∀ x, (cleaned s).head? = some x → x ≠ 95) ∧
    (∀ x, (cleaned s).getLast? = some x → x ≠ 95) ∧
    (cleaned s).Chain' NoAdjU :=
  ⟨fun _ h => cleaned_head h, fun _ h => cleaned_getLast h, cleaned_chain s⟩

/-- C1 counterexample: `sluggify` applied to the one-character string `"É"`
(U+00C9, a word character for Python's Unicode-aware `\W`, lowercased to
`"é"`) returns a string containing a character outside `[a-z0-9_]`, so the
claim's character-class clause fails for non-ASCII input. -/
theorem sluggify_charset_counterexample :
    sluggify (pyCodes "É") = pyCodes "é" ∧
    ¬ (∀ c ∈ sluggify (pyCodes "É"), isSlugOutputChar c = true) := by decide

/-- C1 (amended to ASCII input): for every ASCII input string, `sluggify`
returns a string of length at most 21 whose characters all lie in
`[a-z0-9_]`, and the result never starts or ends with `_` unless the whole
result is `"_"`; moreover `sluggify "" = "_"`. -/
theorem sluggify_ascii_spec (s : List Nat) (hascii : ∀ c ∈ s, c < 128) :
    (sluggify s).length ≤ 21 ∧
    (∀ c ∈ sluggify s, isSlugOutputChar c = true) ∧
    (sluggify s = [95] ∨
      ((sluggify s).head? ≠ some 95 ∧ (sluggify s).getLast? ≠ some 95)) ∧
    sluggify (pyCodes "") = pyCodes "_" := by
  rcases cleaned_facts s with ⟨hhead, hlast, hchain⟩
  by_cases hemp : truncate21 (cleaned s) = []
  · have hs : sluggify s = [95] := by unfold sluggify; rw [if_pos hemp]
    refine ⟨by rw [hs]; decide, ?_, Or.inl hs, by decide⟩
    intro c hc
    rw [hs] at hc
    simp only [List.mem_singleton] at hc
    subst hc
    decide
  · have hs : sluggify s = truncate21 (cleaned s) := by
      unfold sluggify; rw [if_neg hemp]
    refine ⟨?_, ?_, ?_, by decide⟩
    · rw [hs]; exact truncate21_length _
    · rw [hs]
      intro c hc
      exact cleaned_mem hascii c (truncate21_subset _ c hc)
    · refine Or.inr ⟨?_, ?_⟩ <;> rw [hs]
      · intro hcontra
        exact hhead 95 (truncate21_head hcontra) rfl
      · intro hcontra
        exact truncate21_getLast hchain hhead hlast 95 hcontra rfl

/-- Witness for `sluggify_ascii_spec` at the concrete input `"Hello World!"`. -/
theorem sluggify_ascii_spec_witness :
    (∀ c ∈ pyCodes "Hello World!", c < 128) ∧
    ((sluggify (pyCodes "Hello World!")).length ≤ 21 ∧
      (∀ c ∈ sluggify (pyCodes "Hello World!"), isSlugOutputChar c = true) ∧
      (sluggify (pyCodes "Hello World!") = [95] ∨
        ((sluggify (pyCodes "Hello World!")).head? ≠ some 95 ∧
          (sluggify (pyCodes "Hello World!")).getLast? ≠ some 95)) ∧
      sluggify (pyCodes "") = pyCodes "_") :=
  ⟨by decide, sluggify_ascii_spec (pyCodes "Hello World!") (by decide)⟩

/-! ## `MoreComments` (src/praw/models/reddit/more.py)

```python
class MoreComments(PRAWBase):
    def __init__(self, reddit, _data):
        self.count = self.parent_id = None
        self.children = []
        super(MoreComments, self).__init__(reddit, _data)
        self._comments = None
        self.submission = None

    async def _continue_comments(self, update):
        assert not self.children
        parent = await self._load_comment(self.parent_id.split('_', 1)[1])
        self._comments = parent.replies
        if update:
            for comment in self._comments:
                comment.submission = self.submission
        return self._comments

    async def _load_comment(self, comment_id):
        path = '{}_/{}'.format(API_PATH['submission'].format(id=self.submission.id), comment_id)
        _, comments = await self._reddit.get(path, params={'limit': self.submission.comment_limit, 'sort': self.submission.comment_sort})
        assert len(await comments.children) == 1
        return await comments.children[0]

    async def comments(self, update=True):
        if self._comments is None:
            if self.count == 0:  # Handle 'continue this thread'
                return await self._continue_comments(update)
            assert self.children
            data = {'children': ','.join(self.children), 'link_id': self.submission.fullname, 'sort': self.submission.comment_sort}
            self._comments = await self._reddit.post(API_PATH['morechildren'], data=data)
            if update:
                for comment in self._comments:
                    comment.submission = self.submission
        return self._comments
```

The transport is an oracle `t : Request → List Comment`; every operation
returns the list of requests it issued next to its result, and Python
`assert`/`IndexError` failures become `Except.error` values.
-/

/-- The owning submission's data used by `MoreComments`. -/
structure Submission where
  id : String
  fullname : String
  comment_limit : Nat
  comment_sort : String
deriving DecidableEq, Repr

/-- A comment node: its id, its submission back-reference and its replies.
The comment body and author play no role in the claims and are omitted. -/
inductive Comment : Type where
  | mk (cid : String) (submission : Option Submission) (replies : List Comment)

/-- The `replies` attribute of a comment. -/
def Comment.replies : Comment → List Comment
  | .mk _ _ r => r

/-- The `submission` attribute of a comment. -/
def Comment.submissionRef : Comment → Option Submission
  | .mk _ s _ => s

mutual
/-- Modelled from the spec: the `Comment.submission` setter lives in
comment.py, which is not part of the source slice; per the spec's
post-condition ("after expansion, every returned node has its submission
back-reference set to the owning submission (propagation step)") assigning
`comment.submission = s` sets the reference on the node and propagates to
its replies. -/
def Comment.setSubmission (s : Submission) : Comment → Comment
  | .mk cid _ replies => .mk cid (some s) (setSubmissionList s replies)

/-- `Comment.setSubmission` over a list of comments (the loop
`for comment in self._comments: comment.submission = self.submission`). -/
def setSubmissionList (s : Submission) : List Comment → List Comment
  | [] => []
  | c :: cs => Comment.setSubmission s c :: setSubmissionList s cs
end

mutual
/-- Every node of the comment tree has its submission reference equal to
`some s`. -/
def Comment.allSubmissionIs (s : Submission) : Comment → Bool
  | .mk _ sub replies => decide (sub = some s) && allSubmissionIsList s replies

/-- `Comment.allSubmissionIs` over a list of comments. -/
def allSubmissionIsList (s : Submission) : List Comment → Bool
  | [] => true
  | c :: cs => Comment.allSubmissionIs s c && allSubmissionIsList s cs
end

/-- A `MoreComments` placeholder's state: the attributes `count`,
`parent_id`, `children`, the cache `_comments` and the owning `submission`. -/
structure MoreComments where
  count : Nat
  parent_id : String
  children : List String
  comments_cache : Option (List Comment)
  submission : Submission

/-- A request issued to the transport: `reddit.get(path, params)` with the
`limit`/`sort` parameters, or `reddit.post(path, data)` with the
`children`/`link_id`/`sort` data fields. -/
inductive Request : Type where
  | get (path : String) (limit : Nat) (sort : String)
  | post (path : String) (children : String) (link_id : String) (sort : String)
deriving DecidableEq, Repr

/-- The failure modes of expansion: the two `assert` statements in
`comments`/`_continue_comments`, the `assert` in `_load_comment` and the
`IndexError` of `parent_id.split('_', 1)[1]` when `parent_id` holds no
underscore. -/
inductive ExpandError : Type where
  | assertChildrenEmpty
  | assertChildrenNonEmpty
  | assertSingleChild
  | parentIdNoUnderscore
deriving DecidableEq, Repr

/-- `parent_id.split('_', 1)[1]`: everything after the first underscore,
`none` (Python: `IndexError`) when there is none. -/
def afterUnderscoreAux : List Char → Option (List Char)
  | [] => none
  | c :: rest => if c = '_' then some rest else afterUnderscoreAux rest

/-- `s.split('_', 1)[1]` as an `Option`. -/
def afterFirstUnderscore (s : String) : Option String :=
  (afterUnderscoreAux s.data).map fun l => ⟨l⟩

/-- Modelled from the spec: the path template `API_PATH["submission"]`
(`"comments/{id}/"`) lives in const.py, outside the source slice; the spec
describes paths as templates with substituted identifiers. -/
def submissionPath (id : String) : String := "comments/" ++ id ++ "/"

/-- Modelled from the spec: the path `API_PATH["morechildren"]` of the
"more children" endpoint, outside the source slice. -/
def morechildrenPath : String := "api/morechildren"

/-- The single GET of `_load_comment`: path
`'{}_/{}'.format(API_PATH['submission'].format(id=...), comment_id)` with
params `limit`/`sort` from the owning submission. -/
def MoreComments.continueRequest (m : MoreComments) (comment_id : String) : Request :=
  .get (submissionPath m.submission.id ++ "_/" ++ comment_id)
    m.submission.comment_limit m.submission.comment_sort

/-- The single POST of the batched branch of `comments`: the full `children`
list comma-joined, the submission's fullname and comment sort. -/
def MoreComments.batchRequest (m : MoreComments) : Request :=
  .post morechildrenPath (String.intercalate "," m.children)
    m.submission.fullname m.submission.comment_sort

/-- The in-place update loop `if update: for comment in self._comments:
comment.submission = self.submission` applied to a freshly fetched list:
both the cache and the returned list hold the updated comments. -/
def applyUpdate (update : Bool) (s : Submission) (cs : List Comment) : List Comment :=
  if update then setSubmissionList s cs else cs

/-- `MoreComments._load_comment`: one GET; the response's top-level children
must be a single comment (the `assert len(...) == 1`), which is returned. -/
def loadComment (m : MoreComments) (t : Request → List Comment)
    (comment_id : String) : Except ExpandError Comment × List Request :=
  match t (m.continueRequest comment_id) with
  | [c] => (.ok c, [m.continueRequest comment_id])
  | _ => (.error .assertSingleChild, [m.continueRequest comment_id])

/-- `MoreComments._continue_comments`: `assert not self.children`, load the
single parent named by `parent_id`, cache and return its replies (updated in
place when `update` is set). -/
def continueComments (m : MoreComments) (t : Request → List Comment)
    (update : Bool) :
    Except ExpandError (MoreComments × List Comment) × List Request :=
  if m.children ≠ [] then (.error .assertChildrenEmpty, [])
  else
    match afterFirstUnderscore m.parent_id with
    | none => (.error .parentIdNoUnderscore, [])
    | some comment_id =>
      match loadComment m t comment_id with
      | (.error e, reqs) => (.error e, reqs)
      | (.ok parent, reqs) =>
        (.ok ({m with comments_cache :=
                  some (applyUpdate update m.submission parent.replies)},
              applyUpdate update m.submission parent.replies), reqs)

/-- `MoreComments.comments`: return the cache when set; otherwise continue a
thread (`count == 0`) or issue the single batched POST (`assert
self.children` first), cache and return the response (updated in place when
`update` is set). -/
def MoreComments.comments (m : MoreComments) (t : Request → List Comment)
    (update : Bool) :
    Except ExpandError (MoreComments × List Comment) × List Request :=
  match m.comments_cache with
  | some cs => (.ok (m, cs), [])
  | none =>
    if m.count = 0 then continueComments m t update
    else if m.children = [] then (.error .assertChildrenNonEmpty, [])
    else
      (.ok ({m with comments_cache :=
                some (applyUpdate update m.submission (t m.batchRequest))},
            applyUpdate update m.submission (t m.batchRequest)),
       [m.batchRequest])

/-- The comment list exactly as the transport delivers it for `m`'s single
expansion request, before any submission propagation.  Stated from the
spec's post-condition to compare the `update=False` run against: that run
must return these nodes unchanged. -/
def transportComments (m : MoreComments) (t : Request → List Comment) :
    List Comment :=
  if m.count = 0 then
    match afterFirstUnderscore m.parent_id with
    | none => []
    | some comment_id =>
      match t (m.continueRequest comment_id) with
      | [c] => c.replies
      | _ => []
  else t m.batchRequest

/-! ### C2, C3: single-request expansion -/

/-- C2: expanding a continuation placeholder (`count == 0`, not yet cached)
via `comments()` issues exactly one fetch — a single GET addressed to the one
parent named by `parent_id`, carrying the submission's configured comment
limit and sort order — and returns that parent's reply subtree's root
children (updated in place when `update` is set). -/
theorem continuation_single_fetch
    (m : MoreComments) (t : Request → List Comment) (update : Bool)
    (parent : Comment) (comment_id : String)
    (hcache : m.comments_cache = none) (hcount : m.count = 0)
    (hchildren : m.children = [])
    (hpid : afterFirstUnderscore m.parent_id = some comment_id)
    (hresp : t (m.continueRequest comment_id) = [parent]) :
    m.comments t update =
      (.ok ({m with comments_cache :=
                some (applyUpdate update m.submission parent.replies)},
            applyUpdate update m.submission parent.replies),
       [Request.get (submissionPath m.submission.id ++ "_/" ++ comment_id)
          m.submission.comment_limit m.submission.comment_sort]) := by
  unfold MoreComments.comments continueComments loadComment
  simp only [hcache, hcount, hchildren, hpid, hresp, ne_eq, not_true_eq_false,
    if_pos, if_neg, if_true, if_false, ite_true, ite_false]
  rfl

/-- C3: expanding a batched placeholder (`count > 0`, non-empty `children`,
not yet cached) via `comments()` issues exactly one POST to the
`morechildren` endpoint whose `children` field is the full child-id list
comma-joined, together with the owning submission's fullname and comment
sort. -/
theorem batched_single_post
    (m : MoreComments) (t : Request → List Comment) (update : Bool)
    (hcache : m.comments_cache = none) (hcount : 0 < m.count)
    (hchildren : m.children ≠ []) :
    m.comments t update =
      (.ok ({m with comments_cache :=
                some (applyUpdate update m.submission (t m.batchRequest))},
            applyUpdate update m.submission (t m.batchRequest)),
       [Request.post morechildrenPath (String.intercalate "," m.children)
          m.submission.fullname m.submission.comment_sort]) := by
  unfold MoreComments.comments
  simp only [hcache]
  rw [if_neg (by omega), if_neg hchildren]
  rfl

/-- Concrete submission fixture for the expansion witnesses. -/
def exSubmission : Submission := ⟨"abc", "t3_abc", 512, "confidence"⟩

/-- Concrete reply fixture. -/
def exReply : Comment := .mk "r1" none []

/-- Concrete parent-comment fixture. -/
def exParent : Comment := .mk "xyz" none [exReply]

/-- A concrete continuation placeholder (`count == 0`). -/
def exContinuation : MoreComments := ⟨0, "t1_xyz", [], none, exSubmission⟩

/-- A concrete batched placeholder (`count > 0`). -/
def exBatched : MoreComments := ⟨4, "t1_xyz", ["c1", "c2", "c3"], none, exSubmission⟩

/-- A concrete transport answering every request with `[exParent]`. -/
def exTransport : Request → List Comment := fun _ => [exParent]

/-- Witness for `continuation_single_fetch` at a concrete placeholder. -/
theorem continuation_single_fetch_witness :
    exContinuation.comments_cache = none ∧ exContinuation.count = 0 ∧
    exContinuation.children = [] ∧
    afterFirstUnderscore exContinuation.parent_id = some "xyz" ∧
    exTransport (exContinuation.continueRequest "xyz") = [exParent] ∧
    exContinuation.comments exTransport true =
      (.ok
        ({exContinuation with
            comments_cache := some (applyUpdate true exContinuation.submission exParent.replies)},
          applyUpdate true exContinuation.submission exParent.replies),
        [Request.get (submissionPath exContinuation.submission.id ++ "_/" ++ "xyz")
          exContinuation.submission.comment_limit
          exContinuation.submission.comment_sort]) :=
  ⟨rfl, rfl, rfl, rfl, rfl,
    continuation_single_fetch exContinuation exTransport true exParent "xyz"
      rfl rfl rfl rfl rfl⟩

/-- Witness for `batched_single_post` at a concrete placeholder. -/
theorem batched_single_post_witness :
    exBatched.comments_cache = none ∧ 0 < exBatched.count ∧
    exBatched.children ≠ [] ∧
    exBatched.comments exTransport true =
      (.ok
        ({exBatched with
            comments_cache := some (applyUpdate true exBatched.submission (exTransport exBatched.batchRequest))},
          applyUpdate true exBatched.submission (exTransport exBatched.batchRequest)),
        [Request.post morechildrenPath
          (String.intercalate "," exBatched.children)
          exBatched.submission.fullname exBatched.submission.comment_sort]) :=
  ⟨rfl, by decide, by decide,
    batched_single_post exBatched exTransport true rfl (by decide) (by decide)⟩

/-! ### C4: the children assertions are unreachable under the invariant -/

/-- The spec's data invariant on placeholders: a continuation placeholder
(`count == 0`) has no children; a batched placeholder (`count > 0`) has a
non-empty children list. -/
def MoreInvariant (m : MoreComments) : Prop :=
  (m.count = 0 → m.children = []) ∧ (0 < m.count → m.children ≠ [])

/-- Under the invariant, the only errors a run of `comments()` can produce
are the ones of `_load_comment` (`assertSingleChild`) and of the
`parent_id` split (`parentIdNoUnderscore`). -/
theorem comments_error_cases (m : MoreComments)
    (t : Request → List Comment) (update : Bool) (hinv : MoreInvariant m)
    (e : ExpandError) (h : (m.comments t update).1 = .error e) :
    e = .assertSingleChild ∨ e = .parentIdNoUnderscore := by
  unfold MoreComments.comments continueComments loadComment at h
  split at h
  · simp at h
  · split at h
    next hcount =>
      split at h
      next hne => exact absurd (hinv.1 hcount) hne
      next hne =>
        split at h
        · exact Or.inr (by simpa using h.symm)
        · split at h
          next e' reqs heq =>
            split at heq
            · simp at heq
            · simp only [Prod.mk.injEq, Except.error.injEq] at heq
              simp only [Except.error.injEq] at h
              exact Or.inl (by rw [← h, ← heq.1])
          next parent reqs heq => simp at h
    next hcount =>
      split at h
      next hch =>
        exact absurd (hinv.2 (Nat.pos_of_ne_zero hcount)) (by simp [hch])
      next hch => simp at h

/-- C4: under the invariant, neither `assert not self.children` (continuation
branch) nor `assert self.children` (batched branch) can fail: no run of
`comments()` produces either assertion error. -/
theorem expansion_assertions_hold (m : MoreComments)
    (t : Request → List Comment) (update : Bool) (hinv : MoreInvariant m) :
    (m.comments t update).1 ≠ .error .assertChildrenEmpty ∧
    (m.comments t update).1 ≠ .error .assertChildrenNonEmpty := by
  constructor <;> intro h <;>
    rcases comments_error_cases m t update hinv _ h with h' | h' <;> simp at h'

/-- Witness for `expansion_assertions_hold` at the concrete continuation
placeholder. -/
theorem expansion_assertions_hold_witness :
    MoreInvariant exContinuation ∧
    ((exContinuation.comments exTransport true).1 ≠
        .error .assertChildrenEmpty ∧
      (exContinuation.comments exTransport true).1 ≠
        .error .assertChildrenNonEmpty) :=
  ⟨⟨fun _ => rfl, fun h => absurd h (by decide)⟩,
    expansion_assertions_hold exContinuation exTransport true
      ⟨fun _ => rfl, fun h => absurd h (by decide)⟩⟩

/-! ### C9: the cache is populated by the first successful call and stable -/

/-- C9: after any successful call to `comments()` the cache holds the
returned sequence, and every subsequent call — with any transport and any
`update` flag — returns the very same sequence and issues no request. -/
theorem comments_cached_stable (m : MoreComments) (t : Request → List Comment)
    (update : Bool) (m' : MoreComments) (cs : List Comment)
    (h : (m.comments t update).1 = .ok (m', cs)) :
    m'.comments_cache = some cs ∧
    ∀ (t' : Request → List Comment) (update' : Bool),
      m'.comments t' update' = (.ok (m', cs), []) := by
  have hc : m'.comments_cache = some cs := by
    unfold MoreComments.comments continueComments loadComment at h
    split at h
    next cs0 heq =>
      simp at h
      obtain ⟨h1, h2⟩ := h
      subst h1
      subst h2
      exact heq
    next heq =>
      split at h
      next hcount =>
        split at h
        next hne => simp at h
        next hne =>
          split at h
          · simp at h
          · split at h
            next e reqs heq2 => simp at h
            next parent reqs heq2 =>
              simp at h
              obtain ⟨h1, h2⟩ := h
              subst h1
              simpa using h2
      next hcount =>
        split at h
        next hch => simp at h
        next hch =>
          simp at h
          obtain ⟨h1, h2⟩ := h
          subst h1
          simpa using h2
  refine ⟨hc, fun t' update' => ?_⟩
  unfold MoreComments.comments
  rw [hc]

/-- Witness for `comments_cached_stable`: the concrete batched placeholder
after its first expansion. -/
theorem comments_cached_stable_witness :
    (exBatched.comments exTransport true).1 =
      .ok ({exBatched with
              comments_cache := some (setSubmissionList exSubmission [exParent])},
           setSubmissionList exSubmission [exParent]) ∧
    (({exBatched with
        comments_cache := some (setSubmissionList exSubmission [exParent])} :
          MoreComments).comments_cache = some (setSubmissionList exSubmission [exParent]) ∧
      ∀ (t' : Request → List Comment) (update' : Bool),
        ({exBatched with
            comments_cache := some (setSubmissionList exSubmission [exParent])} :
              MoreComments).comments t' update' =
          (.ok ({exBatched with
                  comments_cache := some (setSubmissionList exSubmission [exParent])},
                setSubmissionList exSubmission [exParent]), [])) :=
  ⟨rfl, comments_cached_stable exBatched exTransport true _ _ rfl⟩

/-! ### C5: submission propagation on expansion -/

mutual
/-- Setting the submission on a comment makes every node of its tree carry
that submission. -/
theorem allSub_set (s : Submission) :
    ∀ c : Comment, (Comment.setSubmission s c).allSubmissionIs s = true
  | .mk cid sub replies => by
    rw [Comment.setSubmission, Comment.allSubmissionIs,
      allSubList_set s replies]
    simp

/-- `allSub_set` over lists. -/
theorem allSubList_set (s : Submission) :
    ∀ l : List Comment, allSubmissionIsList s (setSubmissionList s l) = true
  | [] => rfl
  | c :: cs => by
    rw [setSubmissionList, allSubmissionIsList, allSub_set s c,
      allSubList_set s cs]
    rfl
end

/-- C5: for an uncached placeholder whose state lies on one of the two
expansion paths (continuation or batched), expanding with `update=True`
returns the transport-delivered nodes with the submission back-reference set
on every node of every returned tree, while expanding with `update=False`
returns the transport-delivered nodes unchanged. -/
theorem expansion_propagation (m : MoreComments) (t : Request → List Comment)
    (raw : List Comment)
    (hshape :
      (m.count = 0 ∧ m.children = [] ∧
        ∃ cid parent, afterFirstUnderscore m.parent_id = some cid ∧
          t (m.continueRequest cid) = [parent] ∧ raw = parent.replies) ∨
      (0 < m.count ∧ m.children ≠ [] ∧ raw = t m.batchRequest))
    (hcache : m.comments_cache = none) :
    (m.comments t true).1 =
      .ok ({m with comments_cache := some (setSubmissionList m.submission raw)},
           setSubmissionList m.submission raw) ∧
    allSubmissionIsList m.submission (setSubmissionList m.submission raw) = true ∧
    (m.comments t false).1 =
      .ok ({m with comments_cache := some raw}, raw) := by
  refine ⟨?_, allSubList_set m.submission raw, ?_⟩ <;>
  · rcases hshape with ⟨hcount, hchildren, cid, parent, hpid, hresp, hraw⟩ |
      ⟨hcount, hchildren, hraw⟩
    · subst hraw
      unfold MoreComments.comments continueComments loadComment
      simp only [hcache, hcount, hchildren, hpid, hresp, ne_eq,
        not_true_eq_false, if_pos, if_neg, if_true, if_false, ite_true,
        ite_false]
      rfl
    · subst hraw
      unfold MoreComments.comments
      simp only [hcache]
      rw [if_neg (by omega), if_neg hchildren]
      rfl

/-- Witness for `expansion_propagation` at the concrete continuation
placeholder. -/
theorem expansion_propagation_witness :
    ((exContinuation.count = 0 ∧ exContinuation.children = [] ∧
        ∃ cid parent, afterFirstUnderscore exContinuation.parent_id = some cid ∧
          exTransport (exContinuation.continueRequest cid) = [parent] ∧
          exParent.replies = parent.replies) ∨
      (0 < exContinuation.count ∧ exContinuation.children ≠ [] ∧
        exParent.replies = exTransport exContinuation.batchRequest)) ∧
    exContinuation.comments_cache = none ∧
    ((exContinuation.comments exTransport true).1 =
      .ok ({exContinuation with
              comments_cache :=
                some (setSubmissionList exContinuation.submission exParent.replies)},
           setSubmissionList exContinuation.submission exParent.replies) ∧
    allSubmissionIsList exContinuation.submission
      (setSubmissionList exContinuation.submission exParent.replies) = true ∧
    (exContinuation.comments exTransport false).1 =
      .ok ({exContinuation with comments_cache := some exParent.replies},
           exParent.replies)) :=
  ⟨Or.inl ⟨rfl, rfl, "xyz", exParent, rfl, rfl, rfl⟩, rfl,
    expansion_propagation exContinuation exTransport exParent.replies
      (Or.inl ⟨rfl, rfl, "xyz", exParent, rfl, rfl, rfl⟩) rfl⟩

/-! ## HTTP layer for the CRUD wrappers -/

/-- A generic HTTP request: verb, path, and a flat string-keyed dict (the
`params` of a GET or the `data` of a POST/PUT/DELETE), in insertion order. -/
inductive HttpReq : Type where
  | get (path : String) (params : List (String × String))
  | post (path : String) (data : List (String × String))
  | put (path : String) (data : List (String × String))
  | delete (path : String) (data : List (String × String))
deriving DecidableEq, Repr

/-! ## `ReplyableMixin.reply` (src/asyncpraw/models/reddit/mixins/replyable.py)

```python
async def reply(self, body: str):
    data = {"text": body, "thing_id": self.fullname}
    comments = await self._reddit.post(API_PATH["comment"], data=data)
    try:
        return comments[0]
    except IndexError:
        return None
```
-/

/-- An error raised by the transport (API/network exception), which `reply`
propagates unchanged. -/
inductive ApiError : Type where
  | forbidden
  | other (msg : String)
deriving DecidableEq, Repr

/-- Modelled from the spec: the comment-creation endpoint path
`API_PATH["comment"]` lives in const.py, outside the source slice. -/
def commentPath : String := "api/comment"

/-- `ReplyableMixin.reply`: one POST carrying `text`/`thing_id`; `resp` is
the transport's outcome for that POST.  A non-empty result yields its first
comment, an empty result yields `none` (the caught `IndexError`), a
transport error propagates unchanged. -/
def reply (fullname body : String) (resp : Except ApiError (List Comment)) :
    Except ApiError (Option Comment) × List HttpReq :=
  match resp with
  | .error e =>
      (.error e, [HttpReq.post commentPath [("text", body), ("thing_id", fullname)]])
  | .ok [] =>
      (.ok none, [HttpReq.post commentPath [("text", body), ("thing_id", fullname)]])
  | .ok (c :: _) =>
      (.ok (some c), [HttpReq.post commentPath [("text", body), ("thing_id", fullname)]])

/-- C7: an empty reply result returns `None` (success with no retrievable
object) rather than raising; a non-empty result returns its first comment;
a transport error propagates unchanged.  In every case exactly one POST with
the `text`/`thing_id` data dict is issued. -/
theorem reply_result_cases (fullname body : String)
    (resp : Except ApiError (List Comment)) :
    (resp = .ok [] → reply fullname body resp =
      (.ok none,
       [HttpReq.post commentPath [("text", body), ("thing_id", fullname)]])) ∧
    (∀ c cs, resp = .ok (c :: cs) → reply fullname body resp =
      (.ok (some c),
       [HttpReq.post commentPath [("text", body), ("thing_id", fullname)]])) ∧
    (∀ e, resp = .error e → reply fullname body resp =
      (.error e,
       [HttpReq.post commentPath [("text", body), ("thing_id", fullname)]])) := by
  refine ⟨fun h => ?_, fun c cs h => ?_, fun e h => ?_⟩ <;> subst h <;> rfl

/-- Witness for `reply_result_cases` at concrete inputs in all three cases. -/
theorem reply_result_cases_witness :
    reply "t3_abc" "hello" (.ok []) =
      (.ok none,
       [HttpReq.post commentPath [("text", "hello"), ("thing_id", "t3_abc")]]) ∧
    reply "t3_abc" "hello" (.ok [exReply]) =
      (.ok (some exReply),
       [HttpReq.post commentPath [("text", "hello"), ("thing_id", "t3_abc")]]) ∧
    reply "t3_abc" "hello" (.error .forbidden) =
      (.error .forbidden,
       [HttpReq.post commentPath [("text", "hello"), ("thing_id", "t3_abc")]]) :=
  ⟨(reply_result_cases "t3_abc" "hello" (.ok [])).1 rfl,
   (reply_result_cases "t3_abc" "hello" (.ok [exReply])).2.1 exReply [] rfl,
   (reply_result_cases "t3_abc" "hello" (.error .forbidden)).2.2 .forbidden rfl⟩

/-! ## `SubredditRulesModeration.reorder` and `RuleModeration.update`
(src/asyncpraw/models/reddit/rules.py)

```python
async def reorder(self, rule_list):
    order_string = quote(",".join([rule.short_name for rule in rule_list]), safe=",")
    data = {"r": str(self.subreddit_rules.subreddit), "new_rule_order": order_string}
    response = await self.subreddit_rules._reddit.post(API_PATH["reorder_subreddit_rules"], data=data)
    ...

async def update(self, description=None, kind=None, short_name=None, violation_reason=None):
    data = {"r": str(self.rule.subreddit), "old_short_name": self.rule.short_name}
    for name, value in {...}.items():
        data[name] = getattr(self.rule, name) if value is None else value
    response = await self.rule._reddit.post(API_PATH["update_subreddit_rule"], data=data)
    ...
```
-/

/-- Characters Python's `urllib.parse.quote` never escapes: ASCII letters,
digits and `_.-~`. -/
def isUrlAlways (c : Char) : Bool :=
  c.isAlphanum || c = '_' || c = '.' || c = '-' || c = '~'

/-- Uppercase hexadecimal digit. -/
def hexDigit (n : Nat) : Char :=
  ("0123456789ABCDEF").data.getD n '0'

/-- UTF-8 bytes of a code point. -/
def utf8Bytes (n : Nat) : List Nat :=
  if n < 128 then [n]
  else if n < 2048 then [192 + n / 64, 128 + n % 64]
  else if n < 65536 then [224 + n / 4096, 128 + (n / 64) % 64, 128 + n % 64]
  else [240 + n / 262144, 128 + (n / 4096) % 64, 128 + (n / 64) % 64, 128 + n % 64]

/-- Percent-encode one byte as `%XX`. -/
def percentByte (b : Nat) : List Char :=
  ['%', hexDigit (b / 16), hexDigit (b % 16)]

/-- One character under `urllib.parse.quote(·, safe=",")`: kept when
unreserved or a comma (the `safe` argument replaces the default `/`),
otherwise percent-encoded byte by byte. -/
def quoteCharComma (c : Char) : List Char :=
  if isUrlAlways c || c = ',' then [c]
  else (utf8Bytes c.toNat).foldr (fun b acc => percentByte b ++ acc) []

/-- `urllib.parse.quote(s, safe=",")`. -/
def pyQuoteComma (s : String) : String :=
  ⟨(s.data.map quoteCharComma).flatten⟩

example : pyQuoteComma "r3,r1,r2" = "r3,r1,r2" := by decide
example : pyQuoteComma "a b/c" = "a%20b%2Fc" := by decide

/-- Modelled from the spec: the rules endpoints' path templates live in
const.py, outside the source slice. -/
def reorderRulesPath : String := "api/reorder_subreddit_rules"

/-- Modelled from the spec: the rule-update endpoint path, outside the
source slice. -/
def updateRulePath : String := "api/update_subreddit_rule"

/-- `SubredditRulesModeration.reorder`: comma-join the rules' short names,
URL-escape keeping commas safe, and submit the result in a single POST.
The returned string is `order_string`; the parsed response itself comes from
the transport and is not modelled. -/
def SubredditRulesModeration.reorder (subreddit : String)
    (rule_list : List String) : String × List HttpReq :=
  (pyQuoteComma (String.intercalate "," rule_list),
   [HttpReq.post reorderRulesPath
      [("r", subreddit),
       ("new_rule_order", pyQuoteComma (String.intercalate "," rule_list))]])

/-- C8: `reorder` issues exactly one POST whose `new_rule_order` field is
the comma-joined, URL-escaped (commas unescaped) short-name list; for rules
`r3, r1, r2` in that order the serialized field equals `"r3,r1,r2"`. -/
theorem reorder_serialization (subreddit : String) (names : List String) :
    (SubredditRulesModeration.reorder subreddit names).2 =
      [HttpReq.post reorderRulesPath
        [("r", subreddit),
         ("new_rule_order", pyQuoteComma (String.intercalate "," names))]] ∧
    (SubredditRulesModeration.reorder subreddit names).2.length = 1 ∧
    (SubredditRulesModeration.reorder "test" ["r3", "r1", "r2"]).1 = "r3,r1,r2" ∧
    pyQuoteComma "," = "," :=
  ⟨rfl, rfl, by decide, by decide⟩

/-- A rule's state: its subreddit and current attribute values. -/
structure RuleState where
  subreddit : String
  short_name : String
  description : String
  kind : String
  violation_reason : String
deriving DecidableEq, Repr

/-- The data dict built by `RuleModeration.update`: `r` and
`old_short_name` first, then — in the loop's iteration order — each of the
four fields, taking the rule's current attribute when the argument is `None`
and the argument itself (even `""`) otherwise. -/
def RuleModeration.updateData (rule : RuleState)
    (description kind short_name violation_reason : Option String) :
    List (String × String) :=
  [("r", rule.subreddit),
   ("old_short_name", rule.short_name),
   ("description", description.getD rule.description),
   ("kind", kind.getD rule.kind),
   ("short_name", short_name.getD rule.short_name),
   ("violation_reason", violation_reason.getD rule.violation_reason)]

/-- `RuleModeration.update`: build the data dict and submit it in a single
POST; the parsed response comes from the transport and is not modelled. -/
def RuleModeration.update (rule : RuleState)
    (description kind short_name violation_reason : Option String) :
    List (String × String) × List HttpReq :=
  (RuleModeration.updateData rule description kind short_name violation_reason,
   [HttpReq.post updateRulePath
      (RuleModeration.updateData rule description kind short_name violation_reason)])

/-- C10: in `RuleModeration.update`, each of the four parameters passed as
`None` is replaced in the submitted data by the rule's current attribute
value, every explicitly passed value (including `""`) is submitted as given,
and the data always carries the rule's subreddit (`r`) and its old
short name; exactly one POST is issued. -/
theorem rule_update_data (rule : RuleState)
    (description kind short_name violation_reason : Option String) :
    (RuleModeration.update rule description kind short_name violation_reason).2 =
      [HttpReq.post updateRulePath
        (RuleModeration.updateData rule description kind short_name violation_reason)] ∧
    ((RuleModeration.updateData rule description kind short_name
        violation_reason).lookup "r" = some rule.subreddit) ∧
    ((RuleModeration.updateData rule description kind short_name
        violation_reason).lookup "old_short_name" = some rule.short_name) ∧
    ((RuleModeration.updateData rule description kind short_name
        violation_reason).lookup "description" =
      some (description.getD rule.description)) ∧
    ((RuleModeration.updateData rule description kind short_name
        violation_reason).lookup "kind" = some (kind.getD rule.kind)) ∧
    ((RuleModeration.updateData rule description kind short_name
        violation_reason).lookup "short_name" =
      some (short_name.getD rule.short_name)) ∧
    ((RuleModeration.updateData rule description kind short_name
        violation_reason).lookup "violation_reason" =
      some (violation_reason.getD rule.violation_reason)) ∧
    ((RuleModeration.updateData rule (some "") kind short_name
        violation_reason).lookup "description" = some "") :=
  ⟨rfl, rfl, rfl, rfl, rfl, rfl, rfl, rfl⟩

/-! ## Multireddit / Redditor CRUD (C6)

`Multireddit.add`, `Multireddit.copy` (src/asyncpraw/models/reddit/multi.py)
and `Redditor.unblock` (src/asyncpraw/models/reddit/redditor.py).  These
operations call lazy-loading collaborators before their primary request:
`add` and a cold `load` call `_ensure_author_fetched` (a GET when the author
is unfetched), `copy` and `unblock` call `reddit.user.me()` (a GET when the
authenticated user is not cached), and `copy` without a truthy
`display_name` calls `self.load()` first.
-/

/-- A redditor's client-side state: its name and whether `_fetch` has run
(`_fetched`). -/
structure RedditorModel where
  name : String
  fetched : Bool
deriving DecidableEq, Repr

/-- A multireddit's client-side state: `name`, `display_name`, `path`, its
author and whether it has been fetched. -/
structure MultiModel where
  name : String
  display_name : String
  path : String
  author : RedditorModel
  fetched : Bool
deriving DecidableEq, Repr

/-- The authenticated-user state behind `reddit.user.me()`.  Modelled from
the spec (user.py is outside the source slice): a per-object attribute
cache, lazily populated on first access; the server reports the user's name
and fullname. -/
structure Session where
  me_name : String
  me_fullname : String
  me_cached : Bool
deriving DecidableEq, Repr

/-- Modelled from the spec: path templates live in const.py, outside the
source slice (`API_PATH["user_about"]`). -/
def userAboutPath (user : String) : String := "user/" ++ user ++ "/about/"

/-- Modelled from the spec: `API_PATH["multireddit"]`. -/
def multiredditPath (user multi : String) : String :=
  "user/" ++ user ++ "/m/" ++ multi ++ "/"

/-- Modelled from the spec: `API_PATH["multireddit_api"]`. -/
def multiredditApiPath (user multi : String) : String :=
  "api/multi/user/" ++ user ++ "/m/" ++ multi ++ "/"

/-- Modelled from the spec: `API_PATH["multireddit_update"]`. -/
def multiredditUpdatePath (user multi subreddit : String) : String :=
  "api/multi/user/" ++ user ++ "/m/" ++ multi ++ "/r/" ++ subreddit ++ "/"

/-- Modelled from the spec: `API_PATH["multireddit_copy"]`. -/
def multiredditCopyPath : String := "api/multi/copy/"

/-- Modelled from the spec: `API_PATH["unfriend"]`. -/
def unfriendPath (subreddit : String) : String :=
  "r/" ++ subreddit ++ "/api/unfriend/"

/-- Modelled from the spec: the `user.me` endpoint path. -/
def mePath : String := "api/v1/me"

/-- One character under Python `json.dumps` string escaping (quotes and
backslashes; control-character escaping is not modelled and no theorem
evaluates the model on a control character). -/
def jsonEscapeChar (c : Char) : List Char :=
  if c = '"' then ['\\', '"'] else if c = '\\' then ['\\', '\\'] else [c]

/-- `json.dumps({"name": s})` with the default separators. -/
def jsonNameModel (s : String) : String :=
  "\x7b\"name\": \"" ++ String.mk (s.data.map jsonEscapeChar).flatten ++ "\"\x7d"

/-- `Multireddit._ensure_author_fetched`: when the author is not fetched,
run `Redditor._fetch` — one GET to the user-about endpoint.  The response
refreshes the author's attributes; the model keeps the name and marks the
author fetched. -/
def ensureAuthorFetched (m : MultiModel) : MultiModel × List HttpReq :=
  if m.author.fetched then (m, [])
  else ({m with author := {m.author with fetched := true}},
        [HttpReq.get (userAboutPath m.author.name) []])

/-- `Multireddit.add`: ensure the author is fetched, then one PUT to the
multireddit-update path with data `{"model": dumps({"name": str(subreddit)})}`
(the final `_reset_attributes` call only clears an attribute cache and has
no transport effect). -/
def Multireddit.add (m : MultiModel) (subreddit : String) :
    MultiModel × List HttpReq :=
  match ensureAuthorFetched m with
  | (m1, reqs) =>
    (m1, reqs ++
      [HttpReq.put (multiredditUpdatePath m1.author.name m1.name subreddit)
        [("model", jsonNameModel subreddit)]])

/-- Modelled from the spec: `reddit.user.me()` (user.py is outside the
source slice) — a lazily cached lookup of the authenticated user; one GET
when the cache is cold, none afterwards. -/
def Session.me (s : Session) : (String × String) × Session × List HttpReq :=
  if s.me_cached then ((s.me_name, s.me_fullname), s, [])
  else ((s.me_name, s.me_fullname), {s with me_cached := true},
        [HttpReq.get mePath []])

/-- `Redditor.unblock`: look up the authenticated user as the container,
then one POST to `r/all/api/unfriend/` with `container`/`name`/`type`. -/
def Redditor.unblock (r : RedditorModel) (s : Session) :
    Session × List HttpReq :=
  match Session.me s with
  | ((_, fullname), s1, reqs) =>
    (s1, reqs ++
      [HttpReq.post (unfriendPath "all")
        [("container", fullname), ("name", r.name), ("type", "enemy")]])

/-- Modelled from the spec: `RedditBase.load` (base.py is outside the source
slice) — per the spec's attribute-cache rule ("lazily populated on first
access"), fetch the multireddit when not already fetched.
`Multireddit._fetch_info` first ensures the author is fetched, so a cold
load can itself issue up to two GETs. -/
def Multireddit.load (m : MultiModel) : MultiModel × List HttpReq :=
  if m.fetched then (m, [])
  else
    match ensureAuthorFetched m with
    | (m1, reqs) =>
      ({m1 with fetched := true},
       reqs ++ [HttpReq.get (multiredditApiPath m1.author.name m1.name) []])

/-- Python truthiness of the optional `display_name` argument of `copy`:
`None` and `""` are falsy. -/
def pyTruthy : Option String → Bool
  | none => false
  | some d => decide (d ≠ "")

/-- `Multireddit.sluggify` on Lean strings, via the code-point model. -/
def sluggifyStr (s : String) : String :=
  ⟨(sluggify (s.data.map Char.toNat)).map Char.ofNat⟩

/-- `Multireddit.copy`: with a truthy `display_name`, slugify it for the new
name; otherwise `load()` this multireddit and reuse its display name and
name.  Then resolve the authenticated user and issue one POST to the
multireddit-copy path with the display name, source path and target path. -/
def Multireddit.copy (m : MultiModel) (s : Session)
    (display_name : Option String) :
    MultiModel × Session × List HttpReq :=
  match (if pyTruthy display_name then
          (display_name.getD "", sluggifyStr (display_name.getD ""), m,
            ([] : List HttpReq))
        else
          match Multireddit.load m with
          | (m2, reqs) => (m2.display_name, m2.name, m2, reqs)) with
  | (dn, newName, m1, reqs1) =>
    match Session.me s with
    | ((meName, _), s1, reqs2) =>
      (m1, s1, reqs1 ++ reqs2 ++
        [HttpReq.post multiredditCopyPath
          [("display_name", dn), ("from", m1.path),
           ("to", multiredditPath meName newName)]])

/-- A concrete multireddit whose author has not been fetched yet. -/
def exMultiCold : MultiModel :=
  ⟨"test", "Test", "/user/bboe/m/test", ⟨"bboe", false⟩, false⟩

/-- The same multireddit with the author already fetched. -/
def exMultiWarm : MultiModel :=
  ⟨"test", "Test", "/user/bboe/m/test", ⟨"bboe", true⟩, true⟩

/-- A session whose `user.me()` cache is warm. -/
def exSessionWarm : Session := ⟨"me", "t2_me", true⟩

/-- C6 counterexample: `Multireddit.add` on a multireddit whose author has
not been fetched issues two transport calls — the author's lazy-fetch GET
and then the PUT — so "issues exactly one GET/POST/PUT/DELETE call" fails. -/
theorem crud_single_call_counterexample :
    (Multireddit.add exMultiCold "pics").2.length = 2 ∧
    (Multireddit.add exMultiCold "pics").2 =
      [HttpReq.get (userAboutPath "bboe") [],
       HttpReq.put (multiredditUpdatePath "bboe" "test" "pics")
         [("model", jsonNameModel "pics")]] :=
  ⟨rfl, rfl⟩

/-- C6 (amended): each cited CRUD operation builds its parameter dict from
its explicit arguments and issues exactly one primary HTTP call, preceded
only by lazy-resolution GETs for collaborators that are not yet cached (the
multireddit's author, the authenticated user, the multireddit itself on a
`copy` without a display name); when those are already resolved, exactly one
call is issued in total. -/
theorem crud_primary_call
    (m : MultiModel) (r : RedditorModel) (s : Session) (subreddit : String)
    (display_name : Option String) :
    ((Multireddit.add m subreddit).2 =
      (if m.author.fetched then []
       else [HttpReq.get (userAboutPath m.author.name) []]) ++
      [HttpReq.put (multiredditUpdatePath m.author.name m.name subreddit)
        [("model", jsonNameModel subreddit)]]) ∧
    (m.author.fetched = true → (Multireddit.add m subreddit).2 =
      [HttpReq.put (multiredditUpdatePath m.author.name m.name subreddit)
        [("model", jsonNameModel subreddit)]]) ∧
    ((Redditor.unblock r s).2 =
      (if s.me_cached then [] else [HttpReq.get mePath []]) ++
      [HttpReq.post (unfriendPath "all")
        [("container", s.me_fullname), ("name", r.name), ("type", "enemy")]]) ∧
    (s.me_cached = true → (Redditor.unblock r s).2 =
      [HttpReq.post (unfriendPath "all")
        [("container", s.me_fullname), ("name", r.name), ("type", "enemy")]]) ∧
    ((Multireddit.copy m s display_name).2.2 =
      (if pyTruthy display_name then []
       else if m.fetched then []
       else (if m.author.fetched then []
             else [HttpReq.get (userAboutPath m.author.name) []]) ++
         [HttpReq.get (multiredditApiPath m.author.name m.name) []]) ++
      (if s.me_cached then [] else [HttpReq.get mePath []]) ++
      [HttpReq.post multiredditCopyPath
        [("display_name",
            if pyTruthy display_name then display_name.getD ""
            else m.display_name),
         ("from", m.path),
         ("to", multiredditPath s.me_name
            (if pyTruthy display_name then sluggifyStr (display_name.getD "")
             else m.name))]]) ∧
    (pyTruthy display_name = true → s.me_cached = true →
      (Multireddit.copy m s display_name).2.2 =
        [HttpReq.post multiredditCopyPath
          [("display_name", display_name.getD ""), ("from", m.path),
           ("to", multiredditPath s.me_name
              (sluggifyStr (display_name.getD "")))]]) := by
  refine ⟨?_, ?_, ?_, ?_, ?_, ?_⟩
  · cases haf : m.author.fetched <;>
      simp [Multireddit.add, ensureAuthorFetched, haf]
  · intro haf
    simp [Multireddit.add, ensureAuthorFetched, haf]
  · cases hme : s.me_cached <;>
      simp [Redditor.unblock, Session.me, hme]
  · intro hme
    simp [Redditor.unblock, Session.me, hme]
  · cases htr : pyTruthy display_name <;>
      cases hf : m.fetched <;>
      cases haf : m.author.fetched <;>
      cases hme : s.me_cached <;>
        simp [Multireddit.copy, Multireddit.load, ensureAuthorFetched,
          Session.me, htr, hf, haf, hme]
  · intro htr hme
    simp [Multireddit.copy, Session.me, htr, hme]

/-- Witness for `crud_primary_call` at warm (fully cached) fixtures, where
each operation issues exactly one call. -/
theorem crud_primary_call_witness :
    exMultiWarm.author.fetched = true ∧ exSessionWarm.me_cached = true ∧
    pyTruthy (some "My Feed") = true ∧
    (Multireddit.add exMultiWarm "pics").2 =
      [HttpReq.put (multiredditUpdatePath "bboe" "test" "pics")
        [("model", jsonNameModel "pics")]] ∧
    (Redditor.unblock ⟨"spez", true⟩ exSessionWarm).2 =
      [HttpReq.post (unfriendPath "all")
        [("container", "t2_me"), ("name", "spez"), ("type", "enemy")]] ∧
    (Multireddit.copy exMultiWarm exSessionWarm (some "My Feed")).2.2 =
      [HttpReq.post multiredditCopyPath
        [("display_name", "My Feed"), ("from", "/user/bboe/m/test"),
         ("to", multiredditPath "me" (sluggifyStr "My Feed"))]] :=
  ⟨rfl, rfl, by decide,
   (crud_primary_call exMultiWarm ⟨"spez", true⟩ exSessionWarm "pics"
      (some "My Feed")).2.1 rfl,
   (crud_primary_call exMultiWarm ⟨"spez", true⟩ exSessionWarm "pics"
      (some "My Feed")).2.2.2.1 rfl,
   (crud_primary_call exMultiWarm ⟨"spez", true⟩ exSessionWarm "pics"
      (some "My Feed")).2.2.2.2.2 (by decide) rfl⟩

end AsyncPrawSpec
